import Mathlib

/-!
Shallow embedding of the `Motor2` dual-channel H-bridge PWM motor driver
(`src/drivers/motor/motor2.cpp`) from the pimoroni-pico repository.

The hardware-facing driver `Motor2` is in the source tree and is embedded
faithfully below.  The pure logic component `MotorState` and the external
helper `calculate_pwm_factors` are not present under `src/`, so the few
`MotorState` operations that `Motor2` invokes are modelled from the spec
(each marked `Modelled from the spec:`), and `calculate_pwm_factors` is kept
abstract as a function argument `calc : ℚ → Option (ℕ × ℕ)` returning the
`(period, div16)` pair it would report through its out-parameters.

Hardware registers are modelled explicitly: each GPIO channel has a PWM
compare level, and each channel's slice has a wrap register and a clock
divider.  The model takes the two pins on distinct PWM slices (the general
case of the `neg_pin_num != pos_pin_num` branches in the source).  Sequences
of register writes are reified as lists of `HWWrite` events so that the
intermediate hardware states of a frequency change can be inspected.
-/

namespace Motor

/-- The two decay modes of the driver (`MotorState::DecayMode`). -/
inductive DecayMode where
  | SLOW_DECAY : DecayMode
  | FAST_DECAY : DecayMode
deriving DecidableEq, Repr

/-- Motor direction (`MotorState::Direction`). -/
inductive Direction where
  | NORMAL : Direction
  | REVERSED : Direction
deriving DecidableEq, Repr

/-- Modelled from the spec: the logical `MotorState` record (not under
`src/`): stored duty in [-1,1], enabled flag, direction, speed scale and
deadzone fraction. -/
structure MState where
  motor_duty : ℚ
  enabled : Bool
  direction : Direction
  speed_scale : ℚ
  deadzone_percent : ℚ
deriving DecidableEq, Repr

/-- Modelled from the spec: `MotorState::duty_to_level` — `level =
round(duty × period), clamped to [-period, period]`. -/
def duty_to_level (duty : ℚ) (period : ℕ) : ℤ :=
  max (-(period : ℤ)) (min (period : ℤ) (round (duty * (period : ℚ))))

/-- Modelled from the spec: deadzone compensation — magnitudes below `z`
map to exactly 0, magnitudes above are rescaled linearly to reach ±1. -/
def deadzoned (z : ℚ) (d : ℚ) : ℚ :=
  if |d| < z then 0
  else if d < 0 then -((|d| - z) / (1 - z)) else (|d| - z) / (1 - z)

/-- Modelled from the spec: the duty value a `MotorState` operation hands
back to the hardware layer — the deadzone-compensated duty when enabled,
`0` when disabled. -/
def MState.hw_return (s : MState) : ℚ :=
  if s.enabled then deadzoned s.deadzone_percent s.motor_duty else 0

/-- Modelled from the spec: `MotorState::get_duty` returns the stored duty
value (independent of the enabled flag). -/
def MState.get_duty (s : MState) : ℚ := s.motor_duty

/-- Modelled from the spec: `MotorState::is_enabled`. -/
def MState.is_enabled (s : MState) : Bool := s.enabled

/-- Modelled from the spec: `MotorState::set_duty_with_return` — store the
clamped duty with the direction sign applied, and return the duty the
hardware layer should apply (0 when disabled). -/
def MState.set_duty_with_return (s : MState) (duty : ℚ) : MState × ℚ :=
  let signed := if s.direction = Direction.REVERSED then -duty else duty
  let s2 := { s with motor_duty := max (-1) (min 1 signed) }
  (s2, s2.hw_return)

/-- Modelled from the spec: `MotorState::stop_with_return` — set the stored
duty to 0, motor remains enabled or disabled as it was. -/
def MState.stop_with_return (s : MState) : MState × ℚ :=
  let s2 := { s with motor_duty := 0 }
  (s2, s2.hw_return)

/-- Modelled from the spec: `MotorState::disable_with_return` — clear the
enabled flag; a disabled state hands 0 back to the hardware layer. -/
def MState.disable_with_return (s : MState) : MState × ℚ :=
  let s2 := { s with enabled := false }
  (s2, s2.hw_return)

/-- Modelled from the spec: `MotorState::enable_with_return` — set the
enabled flag and hand back the stored duty for re-application. -/
def MState.enable_with_return (s : MState) : MState × ℚ :=
  let s2 := { s with enabled := true }
  (s2, s2.hw_return)

/-- Modelled from the spec: `MotorState::full_negative_with_return` — set
the stored duty to -1. -/
def MState.full_negative_with_return (s : MState) : MState × ℚ :=
  let s2 := { s with motor_duty := -1 }
  (s2, s2.hw_return)

/-- Modelled from the spec: `MotorState::full_positive_with_return` — set
the stored duty to +1. -/
def MState.full_positive_with_return (s : MState) : MState × ℚ :=
  let s2 := { s with motor_duty := 1 }
  (s2, s2.hw_return)

/-- Modelled from the spec: `MotorState::MIN_FREQUENCY` (the lower end of
the hardware-supported band; the numeric value lives in `motor_state.hpp`,
which is not under `src/`). -/
def MIN_FREQUENCY : ℚ := 10

/-- Modelled from the spec: `MotorState::MAX_FREQUENCY` (the upper end of
the hardware-supported band; the numeric value lives in `motor_state.hpp`,
which is not under `src/`). -/
def MAX_FREQUENCY : ℚ := 400000

/-- One hardware register write performed by the driver: a PWM compare
level for the positive or negative channel (`pwm_set_gpio_level`), a wrap
register for the channel's slice (`pwm_set_wrap` / `pwm_config_set_wrap`),
or a clock divider for the channel's slice (`pwm_set_clkdiv_int_frac` /
`pwm_config_set_clkdiv`). -/
inductive HWWrite where
  | setLevelPos (v : ℤ) : HWWrite
  | setLevelNeg (v : ℤ) : HWWrite
  | setWrapPos (v : ℤ) : HWWrite
  | setWrapNeg (v : ℤ) : HWWrite
  | setDivPos (v : ℚ) : HWWrite
  | setDivNeg (v : ℚ) : HWWrite
deriving DecidableEq, Repr

/-- The PWM hardware registers visible to the driver: per-channel compare
levels and the wrap and clock-divider registers of each channel's slice
(the two pins taken on distinct slices, the general case in the source). -/
structure HWState where
  posLevel : ℤ
  negLevel : ℤ
  posWrap : ℤ
  negWrap : ℤ
  posDiv : ℚ
  negDiv : ℚ
deriving DecidableEq, Repr

/-- Apply a single register write to the hardware state. -/
def HWState.applyW (h : HWState) : HWWrite → HWState
  | HWWrite.setLevelPos v => { h with posLevel := v }
  | HWWrite.setLevelNeg v => { h with negLevel := v }
  | HWWrite.setWrapPos v => { h with posWrap := v }
  | HWWrite.setWrapNeg v => { h with negWrap := v }
  | HWWrite.setDivPos v => { h with posDiv := v }
  | HWWrite.setDivNeg v => { h with negDiv := v }

/-- Apply a sequence of register writes in order. -/
def HWState.applyAll (h : HWState) (ws : List HWWrite) : HWState :=
  ws.foldl HWState.applyW h

/-- The hardware states reached after each successive write of a sequence
(the intermediate states of the sequence, ending with the final state). -/
def statesAfter (h : HWState) : List HWWrite → List HWState
  | [] => []
  | w :: rest => (h.applyW w) :: statesAfter (h.applyW w) rest

/-- The value `pwm_set_wrap` receives for a period: the C++ expression
`pwm_period - 1` truncated to the `uint16_t` parameter. -/
def wrap16 (period : ℕ) : ℤ :=
  ((period : ℤ) - 1) % 65536

/-- The `Motor2` driver state: the logical motor state, the recorded PWM
frequency and period, the decay mode, and the hardware registers of the
two channels. -/
structure Motor2 where
  state : MState
  pwm_frequency : ℚ
  pwm_period : ℕ
  motor_decay_mode : DecayMode
  hw : HWState
deriving DecidableEq, Repr

/-- The pair of PWM compare levels `Motor2::apply_duty` writes to the
(positive, negative) channels, following the source's `switch` on the
decay mode and the sign test on `signed_level`. -/
def apply_duty_levels (mode : DecayMode) (period : ℕ) (duty : ℚ) : ℤ × ℤ :=
  let signed_level := duty_to_level duty period
  match mode with
  | DecayMode.SLOW_DECAY =>
    if 0 ≤ signed_level then
      ((period : ℤ), (period : ℤ) - signed_level)
    else
      ((period : ℤ) + signed_level, (period : ℤ))
  | DecayMode.FAST_DECAY =>
    if 0 ≤ signed_level then
      (signed_level, 0)
    else
      (0, 0 - signed_level)

/-- The two `pwm_set_gpio_level` writes `Motor2::apply_duty` performs:
positive channel first, then negative channel. -/
def apply_duty_writes (mode : DecayMode) (period : ℕ) (duty : ℚ) : List HWWrite :=
  [HWWrite.setLevelPos (apply_duty_levels mode period duty).1,
   HWWrite.setLevelNeg (apply_duty_levels mode period duty).2]

/-- `Motor2::apply_duty`: convert the duty to a signed level and write the
two channel compare registers for the active decay mode. -/
def Motor2.apply_duty (m : Motor2) (duty : ℚ) : Motor2 :=
  { m with hw := m.hw.applyAll (apply_duty_writes m.motor_decay_mode m.pwm_period duty) }

/-- `Motor2::init`: ask the PWM-factor calculator for `(period, div16)` at
the configured frequency; on success record the period, configure both
slices with wrap `pwm_period - 1` and divider `div16 / 16`, zero both
channel levels, and return true; on failure change nothing and return
false.  The calculator `cpf` stands for the external
`pimoroni::calculate_pwm_factors`. -/
def Motor2.init (cpf : ℚ → Option (ℕ × ℕ)) (m : Motor2) : Bool × Motor2 :=
  match cpf m.pwm_frequency with
  | some pd =>
    (true, { m with
      pwm_period := pd.1,
      hw := { posLevel := 0, negLevel := 0,
              posWrap := wrap16 pd.1, negWrap := wrap16 pd.1,
              posDiv := (pd.2 : ℚ) / 16, negDiv := (pd.2 : ℚ) / 16 } })
  | none => (false, m)

/-- `Motor2::frequency(freq)`: reject a frequency outside
`[MIN_FREQUENCY, MAX_FREQUENCY]` or one the calculator cannot represent,
leaving everything unchanged.  Otherwise record whether the new period is
larger (`pre_update_pwm`), update `pwm_period`/`pwm_frequency`, then write:
the new divider to both slices; if enabled and the period grew, the two
`apply_duty` levels (computed, as in the source, from the already-updated
`pwm_period`); the new wraps; and if enabled and the period did not grow,
the two `apply_duty` levels.  Returns the success flag, the ordered list
of hardware writes, and the final driver state. -/
def Motor2.frequency (cpf : ℚ → Option (ℕ × ℕ)) (m : Motor2) (freq : ℚ) :
    Bool × List HWWrite × Motor2 :=
  if (MIN_FREQUENCY ≤ freq ∧ freq ≤ MAX_FREQUENCY) then
    match cpf freq with
    | some pd =>
      let period := pd.1
      let div16 := pd.2
      let pre_update_pwm : Bool := decide (m.pwm_period < period)
      let dv : ℚ := (((div16 / 16) % 256 : ℕ) : ℚ) + ((div16 % 16 : ℕ) : ℚ) / 16
      let ws : List HWWrite :=
        [HWWrite.setDivPos dv, HWWrite.setDivNeg dv]
        ++ (if m.state.is_enabled && pre_update_pwm then
              apply_duty_writes m.motor_decay_mode period m.state.get_duty
            else [])
        ++ [HWWrite.setWrapPos (wrap16 period), HWWrite.setWrapNeg (wrap16 period)]
        ++ (if m.state.is_enabled && !pre_update_pwm then
              apply_duty_writes m.motor_decay_mode period m.state.get_duty
            else [])
      (true, ws, { m with pwm_period := period, pwm_frequency := freq,
                          hw := m.hw.applyAll ws })
    | none => (false, [], m)
  else (false, [], m)

/-- `Motor2::decay_mode(mode)`: store the new decay mode, then re-apply
the stored duty (`state.get_duty()`), unconditionally. -/
def Motor2.decay_mode (m : Motor2) (mode : DecayMode) : Motor2 :=
  Motor2.apply_duty { m with motor_decay_mode := mode } m.state.get_duty

/-- `Motor2::enable`. -/
def Motor2.enable (m : Motor2) : Motor2 :=
  Motor2.apply_duty { m with state := m.state.enable_with_return.1 }
    m.state.enable_with_return.2

/-- `Motor2::disable`. -/
def Motor2.disable (m : Motor2) : Motor2 :=
  Motor2.apply_duty { m with state := m.state.disable_with_return.1 }
    m.state.disable_with_return.2

/-- `Motor2::stop`: zero the duty, keep the enabled flag as it is, and
apply the returned duty. -/
def Motor2.stop (m : Motor2) : Motor2 :=
  Motor2.apply_duty { m with state := m.state.stop_with_return.1 }
    m.state.stop_with_return.2

/-- `Motor2::coast`: set the stored duty to 0 (discarding the returned
value, as the source does) and then `disable()`. -/
def Motor2.coast (m : Motor2) : Motor2 :=
  Motor2.disable { m with state := (m.state.set_duty_with_return 0).1 }

/-- `Motor2::full_negative`. -/
def Motor2.full_negative (m : Motor2) : Motor2 :=
  Motor2.apply_duty { m with state := m.state.full_negative_with_return.1 }
    m.state.full_negative_with_return.2

/-- `Motor2::full_positive`. -/
def Motor2.full_positive (m : Motor2) : Motor2 :=
  Motor2.apply_duty { m with state := m.state.full_positive_with_return.1 }
    m.state.full_positive_with_return.2

/-! ### Helper lemmas about the level computation -/

theorem duty_to_level_le (duty : ℚ) (p : ℕ) : duty_to_level duty p ≤ (p : ℤ) := by
  unfold duty_to_level
  have h1 : -(p : ℤ) ≤ (p : ℤ) := by omega
  exact max_le h1 (min_le_left _ _)

theorem duty_to_level_ge (duty : ℚ) (p : ℕ) : -(p : ℤ) ≤ duty_to_level duty p :=
  le_max_left _ _

theorem apply_duty_levels_bounds (mode : DecayMode) (duty : ℚ) (p : ℕ) :
    0 ≤ (apply_duty_levels mode p duty).1 ∧ (apply_duty_levels mode p duty).1 ≤ (p : ℤ) ∧
    0 ≤ (apply_duty_levels mode p duty).2 ∧ (apply_duty_levels mode p duty).2 ≤ (p : ℤ) := by
  have h1 := duty_to_level_le duty p
  have h2 := duty_to_level_ge duty p
  unfold apply_duty_levels
  cases mode <;> dsimp only <;> split <;> simp only [Prod.fst, Prod.snd] <;> omega

end Motor

namespace Motor

/-! ### The claims -/

/-- C3: in SLOW_DECAY mode `apply_duty` holds one channel at the full
period and gives the other `period − |signed_level|`, choosing the
channels by the sign of `signed_level`. -/
theorem slow_decay_channel_pattern (duty : ℚ) (p : ℕ) :
    (0 ≤ duty_to_level duty p →
      apply_duty_levels DecayMode.SLOW_DECAY p duty =
        ((p : ℤ), (p : ℤ) - ((duty_to_level duty p).natAbs : ℤ))) ∧
    (duty_to_level duty p < 0 →
      apply_duty_levels DecayMode.SLOW_DECAY p duty =
        ((p : ℤ) - ((duty_to_level duty p).natAbs : ℤ), (p : ℤ))) := by
  constructor
  · intro h
    have habs : ((duty_to_level duty p).natAbs : ℤ) = duty_to_level duty p :=
      Int.natAbs_of_nonneg h
    simp [apply_duty_levels, if_pos h, habs]
  · intro h
    have habs : ((duty_to_level duty p).natAbs : ℤ) = -(duty_to_level duty p) := by omega
    rw [apply_duty_levels]
    simp only [if_neg (not_le.mpr h), habs]
    rw [sub_neg_eq_add]

/-- Witness for C3: with period 1000 and duty 0.3, `signed_level = 300`,
the positive channel gets 1000 and the negative channel gets 700. -/
theorem slow_decay_channel_pattern_witness :
    apply_duty_levels DecayMode.SLOW_DECAY 1000 (3/10) = (1000, 700) := by
  have hlv : duty_to_level (3/10) 1000 = 300 := by
    norm_num [duty_to_level, round_eq]
  have h := (slow_decay_channel_pattern (3/10) 1000).1 (by rw [hlv]; norm_num)
  rw [h, hlv]
  norm_num

/-- C4: in FAST_DECAY mode `apply_duty` gives one channel `|signed_level|`
and the other 0, choosing the channels by the sign of `signed_level`; and
`full_negative()` on an enabled motor with period 1000 yields positive = 0,
negative = 1000. -/
theorem fast_decay_channel_pattern :
    (∀ (duty : ℚ) (p : ℕ), 0 ≤ duty_to_level duty p →
      apply_duty_levels DecayMode.FAST_DECAY p duty =
        (((duty_to_level duty p).natAbs : ℤ), 0)) ∧
    (∀ (duty : ℚ) (p : ℕ), duty_to_level duty p < 0 →
      apply_duty_levels DecayMode.FAST_DECAY p duty =
        (0, ((duty_to_level duty p).natAbs : ℤ))) ∧
    (∀ m : Motor2, m.state.enabled = true → m.state.deadzone_percent < 1 →
      m.motor_decay_mode = DecayMode.FAST_DECAY → m.pwm_period = 1000 →
      (m.full_negative.hw.posLevel, m.full_negative.hw.negLevel) = (0, 1000)) := by
  refine ⟨?pos, ?neg, ?fneg⟩
  case pos =>
    intro duty p h
    have habs : ((duty_to_level duty p).natAbs : ℤ) = duty_to_level duty p :=
      Int.natAbs_of_nonneg h
    simp [apply_duty_levels, if_pos h, habs]
  case neg =>
    intro duty p h
    have habs : ((duty_to_level duty p).natAbs : ℤ) = -(duty_to_level duty p) := by omega
    rw [apply_duty_levels]
    simp only [if_neg (not_le.mpr h), habs]
    rw [zero_sub]
  case fneg =>
    intro m hen hdz hmode hp
    have hret : m.state.full_negative_with_return.2 = -1 := by
      have hz : (1 : ℚ) - m.state.deadzone_percent ≠ 0 := by
        intro hc
        have : m.state.deadzone_percent = 1 := by linarith
        exact absurd this (ne_of_lt hdz)
      simp only [MState.full_negative_with_return, MState.hw_return, hen, if_true, deadzoned]
      rw [abs_neg, abs_one]
      rw [if_neg (not_lt.mpr (le_of_lt hdz)), if_pos (by norm_num : (-1 : ℚ) < 0)]
      field_simp
    have hlv : duty_to_level (-1) 1000 = -1000 := by
      norm_num [duty_to_level, round_eq]
    simp only [Motor2.full_negative, Motor2.apply_duty, hret, hmode, hp,
      apply_duty_writes, HWState.applyAll, List.foldl, HWState.applyW]
    rw [apply_duty_levels]
    simp [hlv]

/-- Witness for C4: period 1000, duty 0.3 gives positive = 300, negative
= 0, and `full_negative()` on a concrete enabled FAST_DECAY motor with
period 1000 gives positive = 0, negative = 1000. -/
theorem fast_decay_channel_pattern_witness :
    apply_duty_levels DecayMode.FAST_DECAY 1000 (3/10) = (300, 0) ∧
    (let m : Motor2 :=
      { state := { motor_duty := 3/10, enabled := true, direction := Direction.NORMAL,
                   speed_scale := 1, deadzone_percent := 0 },
        pwm_frequency := 25000, pwm_period := 1000,
        motor_decay_mode := DecayMode.FAST_DECAY,
        hw := { posLevel := 300, negLevel := 0, posWrap := 999, negWrap := 999,
                posDiv := 1, negDiv := 1 } }
     (m.full_negative.hw.posLevel, m.full_negative.hw.negLevel) = (0, 1000)) := by
  have hlv : duty_to_level (3/10) 1000 = 300 := by
    norm_num [duty_to_level, round_eq]
  constructor
  · have h := fast_decay_channel_pattern.1 (3/10) 1000 (by rw [hlv]; norm_num)
    rw [h, hlv]
    norm_num
  · exact fast_decay_channel_pattern.2.2 _ rfl (by norm_num) rfl rfl

/-- C10: whenever `|signed_level| ≤ pwm_period`, both PWM levels written
by `apply_duty` lie in `[0, pwm_period]`, in both decay modes. -/
theorem apply_duty_levels_in_range (mode : DecayMode) (duty : ℚ) (p : ℕ)
    (_h : (duty_to_level duty p).natAbs ≤ p) :
    0 ≤ (apply_duty_levels mode p duty).1 ∧ (apply_duty_levels mode p duty).1 ≤ (p : ℤ) ∧
    0 ≤ (apply_duty_levels mode p duty).2 ∧ (apply_duty_levels mode p duty).2 ≤ (p : ℤ) :=
  apply_duty_levels_bounds mode duty p

/-- Witness for C10 at mode SLOW_DECAY, duty 0.3, period 1000. -/
theorem apply_duty_levels_in_range_witness :
    (duty_to_level (3/10) 1000).natAbs ≤ 1000 ∧
    (0 ≤ (apply_duty_levels DecayMode.SLOW_DECAY 1000 (3/10)).1 ∧
     (apply_duty_levels DecayMode.SLOW_DECAY 1000 (3/10)).1 ≤ (1000 : ℤ) ∧
     0 ≤ (apply_duty_levels DecayMode.SLOW_DECAY 1000 (3/10)).2 ∧
     (apply_duty_levels DecayMode.SLOW_DECAY 1000 (3/10)).2 ≤ (1000 : ℤ)) := by
  have hlv : duty_to_level (3/10) 1000 = 300 := by
    norm_num [duty_to_level, round_eq]
  have habs : (duty_to_level (3/10) 1000).natAbs ≤ 1000 := by rw [hlv]; norm_num
  exact ⟨habs, apply_duty_levels_in_range DecayMode.SLOW_DECAY (3/10) 1000 habs⟩

/-- C6: `decay_mode(mode)` stores the new mode and immediately re-applies
the stored duty, so both channel levels hold the new mode's pattern for
the current duty; the logical motor state is untouched. -/
theorem decay_mode_reapplies_duty (m : Motor2) (mode : DecayMode) :
    (m.decay_mode mode).motor_decay_mode = mode ∧
    ((m.decay_mode mode).hw.posLevel, (m.decay_mode mode).hw.negLevel) =
      apply_duty_levels mode m.pwm_period m.state.get_duty ∧
    (m.decay_mode mode).state = m.state := by
  refine ⟨rfl, ?_, rfl⟩
  simp [Motor2.decay_mode, Motor2.apply_duty, apply_duty_writes,
    HWState.applyAll, List.foldl, HWState.applyW]

/-! ### Concrete fixtures used by witnesses and counterexamples -/

/-- A PWM-factor calculator that reports period 1000 and `div16 = 16`
(divider 1) at every frequency. -/
def cpfConst : ℚ → Option (ℕ × ℕ) := fun _ => some (1000, 16)

/-- A PWM-factor calculator that fails at every frequency. -/
def cpfNone : ℚ → Option (ℕ × ℕ) := fun _ => none

/-- A concrete baseline motor: enabled, duty 1/2, NORMAL direction, no
deadzone, FAST_DECAY, frequency 25000 Hz, period 1000, hardware in the
matching steady state. -/
def motorBase : Motor2 :=
  { state := { motor_duty := 1/2, enabled := true, direction := Direction.NORMAL,
               speed_scale := 1, deadzone_percent := 0 },
    pwm_frequency := 25000, pwm_period := 1000,
    motor_decay_mode := DecayMode.FAST_DECAY,
    hw := { posLevel := 500, negLevel := 0, posWrap := 999, negWrap := 999,
            posDiv := 1, negDiv := 1 } }

/-- The baseline motor with its enabled flag cleared. -/
def motorDisabled : Motor2 :=
  { motorBase with state := { motorBase.state with enabled := false } }

/-- The baseline motor with a configured frequency of 500000 Hz, above
`MAX_FREQUENCY`. -/
def motorOutOfBand : Motor2 :=
  { motorBase with pwm_frequency := 500000 }

/-- The baseline motor in SLOW_DECAY mode, hardware in the SLOW_DECAY
steady state for duty 1/2. -/
def motorSlow : Motor2 :=
  { motorBase with
    motor_decay_mode := DecayMode.SLOW_DECAY,
    hw := { posLevel := 1000, negLevel := 500, posWrap := 999, negWrap := 999,
            posDiv := 1, negDiv := 1 } }

/-- C8: when the factor calculation succeeds, `init()` records the period,
configures both slices identically with wrap `period − 1` and divider
`div16/16`, zeroes both channel levels and returns true; when it fails,
`init()` returns false and changes nothing. -/
theorem init_configures_both_pins (cpf : ℚ → Option (ℕ × ℕ)) (m : Motor2) :
    (cpf m.pwm_frequency = none → m.init cpf = (false, m)) ∧
    (∀ p d16 : ℕ, 1 ≤ p → p ≤ 65536 → cpf m.pwm_frequency = some (p, d16) →
      (m.init cpf).1 = true ∧
      (m.init cpf).2.pwm_period = p ∧
      (m.init cpf).2.hw.posWrap = (p : ℤ) - 1 ∧
      (m.init cpf).2.hw.negWrap = (p : ℤ) - 1 ∧
      (m.init cpf).2.hw.posDiv = (d16 : ℚ) / 16 ∧
      (m.init cpf).2.hw.negDiv = (d16 : ℚ) / 16 ∧
      (m.init cpf).2.hw.posLevel = 0 ∧
      (m.init cpf).2.hw.negLevel = 0) := by
  constructor
  · intro h
    simp [Motor2.init, h]
  · intro p d16 hp1 hp2 h
    have hwrap : wrap16 p = (p : ℤ) - 1 := by
      unfold wrap16
      apply Int.emod_eq_of_lt <;> omega
    simp [Motor2.init, h, hwrap]

/-- Witness for C8 at the baseline motor and the constant calculator. -/
theorem init_configures_both_pins_witness :
    (motorBase.init cpfConst).1 = true ∧
    (motorBase.init cpfConst).2.pwm_period = 1000 ∧
    (motorBase.init cpfConst).2.hw.posWrap = 999 ∧
    (motorBase.init cpfConst).2.hw.posDiv = 1 ∧
    (motorBase.init cpfConst).2.hw.posLevel = 0 ∧
    (motorBase.init cpfConst).2.hw.negLevel = 0 := by
  have h := (init_configures_both_pins cpfConst motorBase).2 1000 16
    (by norm_num) (by norm_num) rfl
  refine ⟨h.1, h.2.1, ?_, ?_, h.2.2.2.2.2.2.1, h.2.2.2.2.2.2.2⟩
  · rw [h.2.2.1]; norm_num
  · rw [h.2.2.2.2.1]; norm_num

/-- C5 (amended): `frequency()` fails and leaves the driver (logical state
and hardware registers) unchanged when the requested frequency is outside
the supported band or the calculator cannot represent it; `init()` fails
and leaves the driver unchanged when the calculator fails at the
configured frequency. -/
theorem failure_leaves_configuration_unchanged (cpf : ℚ → Option (ℕ × ℕ))
    (m : Motor2) (freq : ℚ) :
    (¬ (MIN_FREQUENCY ≤ freq ∧ freq ≤ MAX_FREQUENCY) →
      m.frequency cpf freq = (false, [], m)) ∧
    (cpf freq = none → m.frequency cpf freq = (false, [], m)) ∧
    (cpf m.pwm_frequency = none → m.init cpf = (false, m)) := by
  refine ⟨?_, ?_, ?_⟩
  · intro h
    simp [Motor2.frequency, h]
  · intro h
    by_cases hband : MIN_FREQUENCY ≤ freq ∧ freq ≤ MAX_FREQUENCY
    · simp [Motor2.frequency, hband, h]
    · simp [Motor2.frequency, hband]
  · intro h
    simp [Motor2.init, h]

/-- Witness for C5: out-of-band 5 Hz is rejected with no change; a failing
calculator is rejected with no change, for `frequency()` and `init()`. -/
theorem failure_leaves_configuration_unchanged_witness :
    motorBase.frequency cpfConst 5 = (false, [], motorBase) ∧
    motorBase.frequency cpfNone 100 = (false, [], motorBase) ∧
    motorBase.init cpfNone = (false, motorBase) := by
  refine ⟨(failure_leaves_configuration_unchanged cpfConst motorBase 5).1 ?_,
          (failure_leaves_configuration_unchanged cpfNone motorBase 100).2.1 rfl,
          (failure_leaves_configuration_unchanged cpfNone motorBase 100).2.2 rfl⟩
  norm_num [MIN_FREQUENCY]

/-- C5 counterexample: `init()` performs no frequency-band check — with a
calculator that succeeds at the configured 500000 Hz, a frequency that
`frequency()` itself rejects as out of band, `init()` returns success
instead of the failure the claim requires. -/
theorem init_ignores_frequency_band :
    MAX_FREQUENCY < motorOutOfBand.pwm_frequency ∧
    (motorOutOfBand.frequency cpfConst motorOutOfBand.pwm_frequency).1 = false ∧
    (motorOutOfBand.init cpfConst).1 = true := by
  refine ⟨by norm_num [MAX_FREQUENCY, motorOutOfBand, motorBase], ?_, rfl⟩
  norm_num [Motor2.frequency, MIN_FREQUENCY, MAX_FREQUENCY, motorOutOfBand, motorBase]

/-- C9: with the motor disabled, `decay_mode(mode)` still writes the
stored duty's level pattern to the hardware, while a successful
`frequency()` call leaves both channel levels untouched. -/
theorem decay_mode_applies_when_disabled (m : Motor2) (mode : DecayMode)
    (cpf : ℚ → Option (ℕ × ℕ)) (freq : ℚ) (p d16 : ℕ)
    (hdis : m.state.enabled = false)
    (hband : MIN_FREQUENCY ≤ freq ∧ freq ≤ MAX_FREQUENCY)
    (hcpf : cpf freq = some (p, d16)) :
    ((m.decay_mode mode).hw.posLevel, (m.decay_mode mode).hw.negLevel) =
      apply_duty_levels mode m.pwm_period m.state.get_duty ∧
    (m.frequency cpf freq).1 = true ∧
    (m.frequency cpf freq).2.2.hw.posLevel = m.hw.posLevel ∧
    (m.frequency cpf freq).2.2.hw.negLevel = m.hw.negLevel := by
  refine ⟨?_, ?_⟩
  · simp [Motor2.decay_mode, Motor2.apply_duty, apply_duty_writes,
      HWState.applyAll, List.foldl, HWState.applyW]
  · simp [Motor2.frequency, hband, hcpf, MState.is_enabled, hdis,
      HWState.applyAll, List.foldl, HWState.applyW]

/-- Witness for C9 at the disabled baseline motor. -/
theorem decay_mode_applies_when_disabled_witness :
    (((motorDisabled.decay_mode DecayMode.SLOW_DECAY).hw.posLevel,
      (motorDisabled.decay_mode DecayMode.SLOW_DECAY).hw.negLevel) =
        apply_duty_levels DecayMode.SLOW_DECAY motorDisabled.pwm_period
          motorDisabled.state.get_duty) ∧
    (motorDisabled.frequency cpfConst 100).1 = true ∧
    (motorDisabled.frequency cpfConst 100).2.2.hw.posLevel = motorDisabled.hw.posLevel ∧
    (motorDisabled.frequency cpfConst 100).2.2.hw.negLevel = motorDisabled.hw.negLevel :=
  decay_mode_applies_when_disabled motorDisabled DecayMode.SLOW_DECAY cpfConst 100
    1000 16 rfl (by norm_num [MIN_FREQUENCY, MAX_FREQUENCY]) rfl

/-- C7 (failing input for the code_bug): after `coast()` on an enabled
SLOW_DECAY motor with period 1000 the stored duty is 0 and the motor is
disabled, as the claim describes — but because `apply_duty` has no
disabled/no-current branch, the hardware is left driving both channels at
the full period, the SLOW_DECAY braking pattern, exactly as after
`stop()`; the claim that `coast()` never drives the braking pattern is
contradicted by the code. -/
theorem coast_drives_braking_pattern :
    motorSlow.coast.state.motor_duty = 0 ∧
    motorSlow.coast.state.enabled = false ∧
    motorSlow.coast.hw.posLevel = 1000 ∧
    motorSlow.coast.hw.negLevel = 1000 ∧
    motorSlow.stop.state.enabled = true ∧
    motorSlow.stop.hw.posLevel = 1000 ∧
    motorSlow.stop.hw.negLevel = 1000 := by
  norm_num [Motor2.coast, Motor2.disable, Motor2.stop, Motor2.apply_duty,
    MState.set_duty_with_return, MState.disable_with_return, MState.stop_with_return,
    MState.hw_return, deadzoned, apply_duty_writes, apply_duty_levels, duty_to_level,
    HWState.applyAll, List.foldl, HWState.applyW, motorSlow, motorBase]

/-- A PWM-factor calculator that reports period 2000 and `div16 = 16` at
every frequency (a growing period for the fixtures above). -/
def cpfGrow : ℚ → Option (ℕ × ℕ) := fun _ => some (2000, 16)

/-- A PWM-factor calculator that reports period 500 and `div16 = 16` at
every frequency (a shrinking period for the fixtures above). -/
def cpfShrink : ℚ → Option (ℕ × ℕ) := fun _ => some (500, 16)

/-- C1 counterexample: a successful growing frequency change (period 1000
→ 2000, enabled, duty 1/2).  The write trace shows the new divider is
installed *before* the duty re-application, and the level written by the
re-application is 1000 = `duty_to_level(duty, new period)`, not the
500 = `duty_to_level(duty, old period)` the claim's "recomputed against
the old wrap" requires. -/
theorem frequency_preapply_counterexample :
    (motorBase.frequency cpfGrow 100).1 = true ∧
    motorBase.pwm_period < 2000 ∧
    (motorBase.frequency cpfGrow 100).2.1 =
      [HWWrite.setDivPos 1, HWWrite.setDivNeg 1,
       HWWrite.setLevelPos 1000, HWWrite.setLevelNeg 0,
       HWWrite.setWrapPos 1999, HWWrite.setWrapNeg 1999] ∧
    duty_to_level motorBase.state.get_duty motorBase.pwm_period = 500 ∧
    (500 : ℤ) ≠ 1000 := by
  refine ⟨?_, ?_, ?_, ?_, by norm_num⟩
  · norm_num [Motor2.frequency, MIN_FREQUENCY, MAX_FREQUENCY, cpfGrow, motorBase]
  · norm_num [motorBase]
  · norm_num [Motor2.frequency, MIN_FREQUENCY, MAX_FREQUENCY, cpfGrow, motorBase,
      MState.is_enabled, MState.get_duty, apply_duty_writes, apply_duty_levels,
      duty_to_level, round_eq, wrap16]
  · norm_num [motorBase, MState.get_duty, duty_to_level, round_eq]

/-- C1 (amended): when `frequency()` succeeds on an *enabled* motor, the
hardware writes are ordered as follows — the new divider first; then, if
the new period is larger than the old, the duty re-application (computed
against the *new* period, as the source updates `pwm_period` first)
followed by the new wrap; if the new period is not larger, the new wrap
followed by the duty re-application. -/
theorem frequency_write_order (cpf : ℚ → Option (ℕ × ℕ)) (m : Motor2)
    (freq : ℚ) (p d16 : ℕ)
    (hband : MIN_FREQUENCY ≤ freq ∧ freq ≤ MAX_FREQUENCY)
    (hcpf : cpf freq = some (p, d16))
    (hen : m.state.enabled = true) :
    (m.frequency cpf freq).1 = true ∧
    (m.frequency cpf freq).2.1 =
      (let dv : ℚ := (((d16 / 16) % 256 : ℕ) : ℚ) + ((d16 % 16 : ℕ) : ℚ) / 16
       if m.pwm_period < p then
         [HWWrite.setDivPos dv, HWWrite.setDivNeg dv]
           ++ apply_duty_writes m.motor_decay_mode p m.state.get_duty
           ++ [HWWrite.setWrapPos (wrap16 p), HWWrite.setWrapNeg (wrap16 p)]
       else
         [HWWrite.setDivPos dv, HWWrite.setDivNeg dv]
           ++ [HWWrite.setWrapPos (wrap16 p), HWWrite.setWrapNeg (wrap16 p)]
           ++ apply_duty_writes m.motor_decay_mode p m.state.get_duty) := by
  by_cases hpre : m.pwm_period < p <;>
    simp [Motor2.frequency, hband, hcpf, MState.is_enabled, hen, hpre]

/-- Witness for C1 (amended) on a shrinking change: period 1000 → 500 on
the enabled SLOW_DECAY fixture — divider, then wraps, then the duty
re-application against the new period. -/
theorem frequency_write_order_witness :
    (motorSlow.frequency cpfShrink 100).1 = true ∧
    (motorSlow.frequency cpfShrink 100).2.1 =
      [HWWrite.setDivPos 1, HWWrite.setDivNeg 1,
       HWWrite.setWrapPos 499, HWWrite.setWrapNeg 499,
       HWWrite.setLevelPos 500, HWWrite.setLevelNeg 250] := by
  have h := frequency_write_order cpfShrink motorSlow 100 500 16
    (by norm_num [MIN_FREQUENCY, MAX_FREQUENCY]) rfl rfl
  refine ⟨h.1, ?_⟩
  rw [h.2]
  norm_num [motorSlow, motorBase, apply_duty_writes, apply_duty_levels,
    duty_to_level, round_eq, wrap16, MState.get_duty]

/-- The property C2 asserts of a write sequence started from hardware
state `h`: after every write, each channel's compare level is at most the
wrap register of its slice as it stands at that point. -/
def noTransientSaturation (h : HWState) (ws : List HWWrite) : Prop :=
  ∀ s ∈ statesAfter h ws, s.posLevel ≤ s.posWrap ∧ s.negLevel ≤ s.negWrap

/-- C2 counterexample: the successful growing frequency change of the
enabled FAST_DECAY fixture (period 1000 → 2000, duty 1/2).  The duty is
pre-applied against the new period while the old wrap 999 is still in
force, so right after that write the positive channel's level is 1000 >
999 — a transiently saturated output. -/
theorem frequency_transient_saturation_counterexample :
    (motorBase.frequency cpfGrow 100).1 = true ∧
    ¬ noTransientSaturation motorBase.hw (motorBase.frequency cpfGrow 100).2.1 := by
  have htrace : (motorBase.frequency cpfGrow 100).2.1 =
      [HWWrite.setDivPos 1, HWWrite.setDivNeg 1,
       HWWrite.setLevelPos 1000, HWWrite.setLevelNeg 0,
       HWWrite.setWrapPos 1999, HWWrite.setWrapNeg 1999] := by
    norm_num [Motor2.frequency, MIN_FREQUENCY, MAX_FREQUENCY, cpfGrow, motorBase,
      MState.is_enabled, MState.get_duty, apply_duty_writes, apply_duty_levels,
      duty_to_level, round_eq, wrap16]
  refine ⟨?_, ?_⟩
  · norm_num [Motor2.frequency, MIN_FREQUENCY, MAX_FREQUENCY, cpfGrow, motorBase]
  · intro hall
    have hmem : ({ posLevel := 1000, negLevel := 0, posWrap := 999, negWrap := 999,
                   posDiv := 1, negDiv := 1 } : HWState) ∈
        statesAfter motorBase.hw (motorBase.frequency cpfGrow 100).2.1 := by
      rw [htrace]
      simp [statesAfter, HWState.applyW, motorBase]
    have h := (hall _ hmem).1
    norm_num at h

/-- C2 (amended): for an *enabled* motor, every compare level a successful
`frequency()` call writes lies in `[0, new period]`, and once the
sequence has completed each channel's level is at most its slice's wrap
register plus one (wrap + 1 = period being the legitimate full-on level);
mid-sequence a level may transiently exceed the wrap then in force, as
the counterexample records. -/
theorem frequency_level_bounds (cpf : ℚ → Option (ℕ × ℕ)) (m : Motor2)
    (freq : ℚ) (p d16 : ℕ)
    (hband : MIN_FREQUENCY ≤ freq ∧ freq ≤ MAX_FREQUENCY)
    (hcpf : cpf freq = some (p, d16))
    (hen : m.state.enabled = true)
    (hp1 : 1 ≤ p) (hp2 : p ≤ 65536) :
    (∀ v : ℤ, (HWWrite.setLevelPos v ∈ (m.frequency cpf freq).2.1 ∨
               HWWrite.setLevelNeg v ∈ (m.frequency cpf freq).2.1) →
      0 ≤ v ∧ v ≤ (p : ℤ)) ∧
    0 ≤ (m.frequency cpf freq).2.2.hw.posLevel ∧
    (m.frequency cpf freq).2.2.hw.posLevel ≤ (m.frequency cpf freq).2.2.hw.posWrap + 1 ∧
    0 ≤ (m.frequency cpf freq).2.2.hw.negLevel ∧
    (m.frequency cpf freq).2.2.hw.negLevel ≤ (m.frequency cpf freq).2.2.hw.negWrap + 1 := by
  have hb := apply_duty_levels_bounds m.motor_decay_mode m.state.get_duty p
  have hwrap : wrap16 p = (p : ℤ) - 1 := by
    unfold wrap16
    apply Int.emod_eq_of_lt <;> omega
  by_cases hpre : m.pwm_period < p
  · refine ⟨?_, ?_⟩
    · intro v hv
      simp [Motor2.frequency, hband, hcpf, MState.is_enabled, hen, hpre,
        apply_duty_writes] at hv
      rcases hv with hv | hv <;> subst hv <;> omega
    · simp [Motor2.frequency, hband, hcpf, MState.is_enabled, hen, hpre,
        apply_duty_writes, HWState.applyAll, HWState.applyW, hwrap]
      omega
  · refine ⟨?_, ?_⟩
    · intro v hv
      simp [Motor2.frequency, hband, hcpf, MState.is_enabled, hen, hpre,
        apply_duty_writes] at hv
      rcases hv with hv | hv <;> subst hv <;> omega
    · simp [Motor2.frequency, hband, hcpf, MState.is_enabled, hen, hpre,
        apply_duty_writes, HWState.applyAll, HWState.applyW, hwrap]
      omega

/-- Witness for C2 (amended) on the growing change of the enabled
FAST_DECAY fixture. -/
theorem frequency_level_bounds_witness :
    ((∀ v : ℤ, (HWWrite.setLevelPos v ∈ (motorBase.frequency cpfGrow 100).2.1 ∨
                HWWrite.setLevelNeg v ∈ (motorBase.frequency cpfGrow 100).2.1) →
       0 ≤ v ∧ v ≤ (2000 : ℤ)) ∧
     0 ≤ (motorBase.frequency cpfGrow 100).2.2.hw.posLevel ∧
     (motorBase.frequency cpfGrow 100).2.2.hw.posLevel ≤
       (motorBase.frequency cpfGrow 100).2.2.hw.posWrap + 1 ∧
     0 ≤ (motorBase.frequency cpfGrow 100).2.2.hw.negLevel ∧
     (motorBase.frequency cpfGrow 100).2.2.hw.negLevel ≤
       (motorBase.frequency cpfGrow 100).2.2.hw.negWrap + 1) := by
  have h := frequency_level_bounds cpfGrow motorBase 100 2000 16
    (by norm_num [MIN_FREQUENCY, MAX_FREQUENCY]) rfl rfl (by norm_num) (by norm_num)
  exact h

end Motor
